import Mathlib

/-!
Shallow embedding of `src/mcp_chatbot.py` (the `MCP_ChatBot` class and `main`).

Modelling conventions:
* A remote MCP session object is identified by a `Nat` (`SessionId`); the
  Python registry `self.sessions : dict[str, ClientSession]` becomes an
  association list `List (String × Nat)` with Python-dict insert semantics
  (update in place, else append; lookup finds the first match).
* Side effects (`print`, model API calls, transport calls) are recorded as an
  ordered list of `Event`s.
* The model API is an oracle: each call to `anthropic.messages.create` inside
  the `process_query` loop consumes the next entry of a list of round
  outcomes, an entry being either a raised exception (`.error msg`) or a
  response content list (`.ok blocks`).  Tool invocation, resource reading and
  prompt fetching are likewise oracle functions returning `Except`.
* Python exceptions are modelled as `Except`/`Option String` error channels;
  a `try/except` block in the source corresponds to a `match` on that channel.
* None of the methods of `MCP_ChatBot` other than `connect_to_server` ever
  assigns a `self` attribute, so only `connect_to_server` returns an updated
  `Bot`; the chat loop still threads the `Bot` state so that its preservation
  is a provable statement rather than a typing accident at each call site.
-/

namespace MCPChat

/-- A content block of a model response: `c.type == "text"` carries a text
payload; `c.type == "tool_use"` carries an id, a tool name and an arguments
payload (the Python `dict` of arguments is kept opaque as a `String`). -/
inductive ContentBlock where
  | text (t : String)
  | toolUse (id : String) (name : String) (args : String)
deriving DecidableEq, Repr

/-- Mirror of the list comprehension filter `c.type == "tool_use"` (line 44). -/
def ContentBlock.isToolUse : ContentBlock → Bool
  | .toolUse _ _ _ => true
  | .text _ => false

/-- The id of a tool-use-request block, `none` for a text block. -/
def ContentBlock.requestId : ContentBlock → Option String
  | .toolUse i _ _ => some i
  | .text _ => none

/-- The ids of the tool-use-request blocks of a response, in block order. -/
def requestIds (content : List ContentBlock) : List String :=
  content.filterMap ContentBlock.requestId

/-- The texts of the text blocks of a response, in block order. -/
def textsOf (content : List ContentBlock) : List String :=
  content.filterMap fun c => match c with
    | .text t => some t
    | .toolUse _ _ _ => none

/-- A `tool_result` dict as built on lines 70-76. -/
structure ToolResultBlock where
  tool_use_id : String
  content : String
deriving DecidableEq, Repr

/-- The content of a history message: the initial plain-string user query,
an assistant response (list of content blocks), or a user message carrying
tool results. -/
inductive MsgContent where
  | ofString (s : String)
  | blocks (bs : List ContentBlock)
  | results (rs : List ToolResultBlock)
deriving DecidableEq, Repr

/-- One message of the `messages` history list. -/
structure Message where
  role : String
  content : MsgContent
deriving DecidableEq, Repr

/-- Observable side effects, in program order. -/
inductive Event where
  | print (s : String)
  | modelCall
  | toolCall (session : Nat) (name : String) (args : String)
  | readResource (session : Nat) (uri : String)
  | getPrompt (session : Nat) (name : String) (args : List (String × String))
deriving DecidableEq, Repr

/-- The strings printed among a list of events, in order. -/
def printedOf (evs : List Event) : List String :=
  evs.filterMap fun e => match e with
    | .print s => some s
    | _ => none

/-- Entry of `self.available_tools` (lines 222-228). -/
structure ToolDescriptor where
  name : String
  description : String
  input_schema : String
deriving DecidableEq, Repr

/-- Entry of `self.available_prompts` (lines 235-241); arguments are kept as
their printable names. -/
structure PromptInfo where
  name : String
  description : String
  arguments : List String
deriving DecidableEq, Repr

/-- The mutable state of an `MCP_ChatBot` instance.  `session` is `none`
before `connect_to_server` assigns `self.session` (line 214). -/
structure Bot where
  session : Option Nat
  sessions : List (String × Nat)
  available_tools : List ToolDescriptor
  available_prompts : List PromptInfo
deriving DecidableEq, Repr

/-- State set up by `__init__` (lines 21-26): empty registry, no session. -/
def initialBot : Bot :=
  { session := none, sessions := [], available_tools := [], available_prompts := [] }

/-- Python-dict assignment `d[k] = v`: update the existing entry in place,
else append at the end (dicts preserve insertion order). -/
def dictInsert {α : Type} : List (String × α) → String → α → List (String × α)
  | [], k, v => [(k, v)]
  | (k₀, v₀) :: tl, k, v =>
      if k₀ = k then (k, v) :: tl else (k₀, v₀) :: dictInsert tl k v

/-- Python-dict lookup `d.get(k)`: the first entry with the key. -/
def dictGet {α : Type} (d : List (String × α)) (k : String) : Option α :=
  (d.find? fun p => p.1 = k).map (·.2)

/-- Python `str.strip()` with no argument: remove leading and trailing
whitespace.  (Implemented on the character list so that it computes by
kernel reduction; Lean core string functions use well-founded recursion.) -/
def pyStrip (s : String) : String :=
  String.mk (((s.data.dropWhile Char.isWhitespace).reverse.dropWhile
    Char.isWhitespace).reverse)

/-- Python `str.lower()` (the inputs involved are ASCII). -/
def pyLower (s : String) : String :=
  String.mk (s.data.map Char.toLower)

/-- Python `s.startswith(pre)`. -/
def pyStartsWith (s pre : String) : Bool :=
  pre.data.isPrefixOf s.data

/-- Python `s[1:]`. -/
def pyDropOne (s : String) : String :=
  String.mk (s.data.drop 1)

/-- Helper for `pySplit`: cut the character list at every whitespace
character (producing empty pieces at whitespace runs). -/
def splitWsAux : List Char → List Char → List String
  | [], acc => [String.mk acc.reverse]
  | c :: cs, acc =>
      if c.isWhitespace then String.mk acc.reverse :: splitWsAux cs []
      else splitWsAux cs (c :: acc)

/-- Python `str.split()` with no argument: split on whitespace runs,
dropping empty pieces. -/
def pySplit (s : String) : List String :=
  (splitWsAux s.data []).filter (· ≠ "")

/-- The trace line printed before each tool dispatch (lines 61-63). -/
def traceLine : ContentBlock → String
  | .toolUse i n a => "Calling tool: " ++ n ++ " (ID: " ++ i ++ ") with args: " ++ a
  | .text _ => ""

/-- Result of the per-round tool-dispatch loop (lines 54-76): the events it
performs, the `tool_results` list it builds, and the exception it raises, if
any (a raise abandons the results built so far). -/
structure ToolLoopRun where
  events : List Event
  results : List ToolResultBlock
  err : Option String
deriving DecidableEq, Repr

/-- The `for block in tool_use_blocks` loop (lines 55-76): print the trace
line, dispatch the call on `self.session` (line 66), collect the
`tool_result` dict.  `session = none` models the unset `self.session`
attribute; a failing call raises. -/
def callTools (session : Option Nat) (toolRes : String → String → Except String String) :
    List ContentBlock → ToolLoopRun
  | [] => ⟨[], [], none⟩
  | .text _ :: tl => callTools session toolRes tl
  | .toolUse i n a :: tl =>
      let tr := Event.print (traceLine (.toolUse i n a))
      match session with
      | none => ⟨[tr], [], some "AttributeError"⟩
      | some sid =>
          match toolRes n a with
          | .error e => ⟨[tr, .toolCall sid n a], [], some e⟩
          | .ok r =>
              let k := callTools session toolRes tl
              ⟨tr :: .toolCall sid n a :: k.events, ⟨i, r⟩ :: k.results, k.err⟩

/-- How one run of the `process_query` loop ended: normal `break`, a raised
exception, or the response oracle ran out before a tool-free response (the
loop would keep calling the model). -/
inductive QueryOutcome where
  | completed
  | raised (msg : String)
  | oracleOut
deriving DecidableEq, Repr

/-- Result of a `process_query` run: events, how it ended, and the final
value of the local `messages` list. -/
structure QueryRun where
  events : List Event
  outcome : QueryOutcome
  finalMessages : List Message
deriving DecidableEq, Repr

/-- The response text printed when no tool use is requested (lines 48-50). -/
def textPrints (content : List ContentBlock) : List Event :=
  content.filterMap fun c => match c with
    | .text t => some (Event.print t)
    | .toolUse _ _ _ => none

/-- The `while True` loop of `process_query` (lines 32-79).  Each iteration
consumes one oracle entry for the model call; on `.ok content` the assistant
message is appended, the tool-use blocks are filtered out, and either the
text blocks are printed and the loop breaks, or the tools are dispatched and
one user message with the batched results is appended. -/
def processQueryLoop (bot : Bot) (toolRes : String → String → Except String String)
    (messages : List Message) :
    List (Except String (List ContentBlock)) → QueryRun
  | [] => ⟨[], .oracleOut, messages⟩
  | .error e :: _ => ⟨[.modelCall], .raised e, messages⟩
  | .ok content :: rest =>
      let msgs₁ := messages ++ [⟨"assistant", .blocks content⟩]
      if content.filter ContentBlock.isToolUse = [] then
        ⟨Event.modelCall :: textPrints content, .completed, msgs₁⟩
      else
        let tr := callTools bot.session toolRes (content.filter ContentBlock.isToolUse)
        match tr.err with
        | some e => ⟨Event.modelCall :: tr.events, .raised e, msgs₁⟩
        | none =>
            let inner := processQueryLoop bot toolRes
              (msgs₁ ++ [⟨"user", .results tr.results⟩]) rest
            ⟨Event.modelCall :: tr.events ++ inner.events, inner.outcome, inner.finalMessages⟩

/-- `process_query` (lines 28-79): history starts as the single user message
holding the query (line 30). -/
def process_query (bot : Bot) (toolRes : String → String → Except String String)
    (query : String) (rounds : List (Except String (List ContentBlock))) : QueryRun :=
  processQueryLoop bot toolRes [⟨"user", .ofString query⟩] rounds

/-- An element of a `read_resource` result's `contents` list; only its
`text` field is used (line 105). -/
structure ResContent where
  text : String
deriving DecidableEq, Repr

/-- The content of one message of a `get_prompt` result (line 136): either a
plain string, an object with a `text` attribute, or a list of parts rendered
by their `text` attributes (lines 137-142). -/
inductive PromptContent where
  | str (s : String)
  | withText (t : String)
  | parts (ts : List String)
deriving DecidableEq, Repr

/-- Lines 137-142: `content if isinstance(content, str) else
getattr(content, "text", None) or " ".join(...)`. -/
def renderPromptContent : PromptContent → String
  | .str s => s
  | .withText t => t
  | .parts ts => String.intercalate " " ts

/-- The external world: the model-response oracle per query, the tool-call
oracle, the resource-read oracle and the prompt-fetch oracle (each keyed by
the session the call is dispatched on, returning `.error` for a raised
exception). -/
structure Env where
  rounds : String → List (Except String (List ContentBlock))
  toolResult : String → String → Except String String
  readResult : Nat → String → Except String (List ResContent)
  promptResult : Nat → String → List (String × String) → Except String (List PromptContent)

/-- Session resolution of `get_resource` (lines 83-94): exact registry
lookup, then for `papers://` URIs a fallback to the first registered
`papers://` entry in insertion order. -/
def resolveResource (sessions : List (String × Nat)) (resource_uri : String) : Option Nat :=
  match dictGet sessions resource_uri with
  | some sid => some sid
  | none =>
      if pyStartsWith resource_uri "papers://" then
        (sessions.find? fun p => pyStartsWith p.1 "papers://").map (·.2)
      else none

/-- `get_resource` (lines 81-109): resolve the session, read the resource,
print the first content element's text; `try/except` turns any raised error
into a printed line. -/
def get_resource (env : Env) (bot : Bot) (resource_uri : String) : List Event :=
  match resolveResource bot.sessions resource_uri with
  | none => [.print ("Resource '" ++ resource_uri ++ "' not found.")]
  | some sid =>
      Event.readResource sid resource_uri ::
      match env.readResult sid resource_uri with
      | .error e => [.print ("Error: " ++ e)]
      | .ok [] => [.print "No content available."]
      | .ok (c :: _) =>
          [.print ("\nResource: " ++ resource_uri), .print "Content:", .print c.text]

/-- `list_prompts` (lines 111-124). -/
def list_prompts (bot : Bot) : List Event :=
  if bot.available_prompts.isEmpty then [.print "No prompts available."]
  else
    Event.print "\nAvailable prompts:" ::
    bot.available_prompts.flatMap fun p =>
      Event.print ("- " ++ p.name ++ ": " ++ p.description) ::
      if p.arguments.isEmpty then []
      else Event.print "  Arguments:" :: p.arguments.map fun a => Event.print ("    - " ++ a)

/-- `execute_prompt` (lines 126-146): registry lookup by prompt name, fetch
the prompt, render the first message's content and feed it to
`process_query`; the surrounding `try/except` also catches exceptions
raised by that nested `process_query` call. -/
def execute_prompt (env : Env) (bot : Bot) (prompt_name : String)
    (args : List (String × String)) : List Event :=
  match dictGet bot.sessions prompt_name with
  | none => [.print ("Prompt '" ++ prompt_name ++ "' not found.")]
  | some sid =>
      Event.getPrompt sid prompt_name args ::
      match env.promptResult sid prompt_name args with
      | .error e => [.print ("Error: " ++ e)]
      | .ok [] => []
      | .ok (content :: _) =>
          let text := renderPromptContent content
          let run := process_query bot env.toolResult text (env.rounds text)
          Event.print ("\nExecuting prompt '" ++ prompt_name ++ "'...") ::
          run.events ++
          match run.outcome with
          | .raised e => [.print ("Error: " ++ e)]
          | _ => []

/-- Splitting a token on its first occurrence of `sep`
(Python `arg.split(sep, 1)`); `none` when `sep` does not occur. -/
def splitFirst (sep : Char) : List Char → Option (List Char × List Char)
  | [] => none
  | c :: cs =>
      if c = sep then some ([], cs)
      else
        match splitFirst sep cs with
        | none => none
        | some (k, v) => some (c :: k, v)

/-- One step of the argument-parsing loop of `/prompt` (lines 187-190):
`if "=" in arg: key, value = arg.split("=", 1); args[key] = value`. -/
def parseArgStep (args : List (String × String)) (arg : String) : List (String × String) :=
  match splitFirst '=' arg.data with
  | none => args
  | some (k, v) => dictInsert args (String.mk k) (String.mk v)

/-- The whole argument-parsing loop over the trailing tokens. -/
def parseArgs (tokens : List String) : List (String × String) :=
  tokens.foldl parseArgStep []

/-- Result of handling one non-empty, non-quit input line: the (unchanged)
bot state, the events performed, and the exception escaping to the
`except` clause of `chat_loop`, if any. -/
structure LineRun where
  bot : Bot
  events : List Event
  raised : Option String
deriving DecidableEq, Repr

/-- The body of one `chat_loop` iteration after the empty/quit check
(lines 160-198): `@` resource syntax, `/` command syntax, or a free-form
query.  Only the free-form `process_query` call can raise out of the body:
`get_resource` and `execute_prompt` catch their own errors. -/
def handleLine (env : Env) (bot : Bot) (query : String) : LineRun :=
  if pyStartsWith query "@" then
    let topic := pyDropOne query
    let uri := if topic = "folders" then "papers://folders" else "papers://" ++ topic
    ⟨bot, get_resource env bot uri, none⟩
  else if pyStartsWith query "/" then
    let parts := pySplit query
    let command := pyLower (parts.headD "")
    if command = "/prompts" then ⟨bot, list_prompts bot, none⟩
    else if command = "/prompt" then
      if parts.length < 2 then
        ⟨bot, [.print "Usage: /prompt <name> <arg1=value1> <arg2=value2>"], none⟩
      else
        let prompt_name := parts.getD 1 ""
        let args := parseArgs (parts.drop 2)
        ⟨bot, execute_prompt env bot prompt_name args, none⟩
    else ⟨bot, [.print ("Unknown command: " ++ command)], none⟩
  else
    let run := process_query bot env.toolResult query (env.rounds query)
    ⟨bot, run.events,
      match run.outcome with
      | .raised e => some e
      | _ => none⟩

/-- Result of running the read-eval loop: final bot state and events. -/
structure LoopRun where
  bot : Bot
  events : List Event
deriving DecidableEq, Repr

/-- The `while True` read-eval loop of `chat_loop` (lines 154-201): strip
the line, break on empty or case-insensitive quit, otherwise run the body;
a raised exception is caught, printed, and the loop continues with the next
line.  Exhausting the input list ends the loop. -/
def chatLoopAux (env : Env) (bot : Bot) : List String → LoopRun
  | [] => ⟨bot, []⟩
  | line :: rest =>
      let query := pyStrip line
      if query = "" ∨ pyLower query = "quit" then ⟨bot, []⟩
      else
        let r := handleLine env bot query
        let evs :=
          match r.raised with
          | none => r.events
          | some e => r.events ++ [.print ("\nError: " ++ e)]
        let k := chatLoopAux env r.bot rest
        ⟨k.bot, evs ++ k.events⟩

/-- The banner printed on entry to `chat_loop` (lines 150-152). -/
def chatBanner : String :=
  "\n🤖 MCP Chatbot | Commands: quit | @folders | @<topic> | /prompts | /prompt <name> <args>\n"

/-- `chat_loop` (lines 148-201): banner, then the read-eval loop. -/
def chat_loop (env : Env) (bot : Bot) (inputs : List String) : LoopRun :=
  let k := chatLoopAux env bot inputs
  ⟨k.bot, Event.print chatBanner :: k.events⟩

/-- What capability discovery reports on a successful connection:
`list_tools`, `list_prompts` and `list_resources` payloads. -/
structure Discovery where
  tools : List ToolDescriptor
  prompts : List PromptInfo
  resourceUris : List String
deriving DecidableEq, Repr

/-- `connect_to_server` (lines 203-250).  On success the one session is
stored in `self.session` and every discovered tool name, prompt name and
resource URI is mapped to it in `self.sessions`; descriptors are appended
to the exposed lists.  Any exception is caught by the `except` clause,
which prints the error and returns normally, leaving the state as it was. -/
def connect_to_server (outcome : Except String (Nat × Discovery)) (bot : Bot) :
    Bot × List Event :=
  match outcome with
  | .error e => (bot, [.print ("\nError connecting to server: " ++ e)])
  | .ok (sid, d) =>
      let b₁ := { bot with session := some sid }
      let b₂ := d.tools.foldl (fun b t =>
        { b with sessions := dictInsert b.sessions t.name sid,
                 available_tools := b.available_tools ++ [t] }) b₁
      let b₃ := d.prompts.foldl (fun b p =>
        { b with sessions := dictInsert b.sessions p.name sid,
                 available_prompts := b.available_prompts ++ [p] }) b₂
      let b₄ := d.resourceUris.foldl (fun b u =>
        { b with sessions := dictInsert b.sessions u sid }) b₃
      (b₄, [])

/-- `main` (lines 257-264): construct the bot, connect, run the chat loop
(unconditionally — `connect_to_server` swallows its own errors), returning
the full event trace. -/
def mainEvents (outcome : Except String (Nat × Discovery)) (env : Env)
    (inputs : List String) : List Event :=
  let c := connect_to_server outcome initialBot
  c.2 ++ (chat_loop env c.1 inputs).events

/-! ### Concrete fixtures used to evaluate the definitions -/

/-- A concrete environment: the model answers `hello` with a text-only
response, raises a `ConnectionError` on `boom`, and serves one two-element
resource on session 5. -/
def envA : Env :=
  { rounds := fun q =>
      if q = "hello" then [.ok [.text "hi"]]
      else if q = "boom" then [.error "ConnectionError"]
      else [],
    toolResult := fun _ _ => .ok "res",
    readResult := fun sid uri =>
      if sid = 5 ∧ uri = "papers://folders" then .ok [⟨"alpha"⟩, ⟨"beta"⟩]
      else .ok [⟨"txt"⟩],
    promptResult := fun _ _ _ => .ok [.str "ptext"] }

/-- A connected bot: session 5, one registered resource URI. -/
def bot5 : Bot :=
  { session := some 5, sessions := [("papers://folders", 5)],
    available_tools := [], available_prompts := [] }

/-- A bot whose registry maps tool name `f` to a session (99) different
from its fixed `session` attribute (1). -/
def botMis : Bot :=
  { session := some 1, sessions := [("f", 99)],
    available_tools := [], available_prompts := [] }

/-- A concrete discovery payload: one tool, one prompt, one resource. -/
def discA : Discovery :=
  ⟨[⟨"t1", "d", "s"⟩], [⟨"p1", "d", ["a"]⟩], ["papers://folders"]⟩

/-! ### Helper lemmas -/

theorem printedOf_append (a b : List Event) :
    printedOf (a ++ b) = printedOf a ++ printedOf b := by
  simp [printedOf]

theorem printedOf_modelCall_cons (l : List Event) :
    printedOf (Event.modelCall :: l) = printedOf l := by
  simp [printedOf]

theorem filter_isToolUse_idem (bs : List ContentBlock) :
    (bs.filter ContentBlock.isToolUse).filter ContentBlock.isToolUse =
      bs.filter ContentBlock.isToolUse := by
  induction bs with
  | nil => rfl
  | cons c tl ih => cases c <;> simp [ContentBlock.isToolUse] at ih ⊢ <;> simpa using ih

theorem printedOf_textPrints (content : List ContentBlock) :
    printedOf (textPrints content) = textsOf content := by
  induction content with
  | nil => rfl
  | cons c tl ih =>
      cases c <;> simp [textPrints, textsOf, printedOf] at ih ⊢ <;>
        simpa [printedOf, textsOf, textPrints] using ih

theorem callTools_ok_err (sid : Nat) (f : String → String → String)
    (bs : List ContentBlock) :
    (callTools (some sid) (fun n a => .ok (f n a)) bs).err = none := by
  induction bs with
  | nil => rfl
  | cons c tl ih => cases c <;> simp [callTools, ih]

theorem callTools_ok_printed (sid : Nat) (f : String → String → String)
    (bs : List ContentBlock) :
    printedOf (callTools (some sid) (fun n a => .ok (f n a)) bs).events =
      (bs.filter ContentBlock.isToolUse).map traceLine := by
  induction bs with
  | nil => rfl
  | cons c tl ih =>
      cases c <;> simp [callTools, ContentBlock.isToolUse, printedOf] at ih ⊢ <;>
        simpa [printedOf] using ih

theorem callTools_ids (s : Option Nat) (toolRes : String → String → Except String String)
    (bs : List ContentBlock) (h : (callTools s toolRes bs).err = none) :
    (callTools s toolRes bs).results.map ToolResultBlock.tool_use_id = requestIds bs := by
  induction bs with
  | nil => rfl
  | cons c tl ih =>
      cases c with
      | text t => simpa [callTools, requestIds, ContentBlock.requestId] using ih (by simpa [callTools] using h)
      | toolUse i n a =>
          cases s with
          | none => simp [callTools] at h
          | some sid =>
              cases hr : toolRes n a with
              | error e => simp [callTools, hr] at h
              | ok r =>
                  have h₀ : (callTools (some sid) toolRes tl).err = none := by
                    simpa [callTools, hr] using h
                  simpa [callTools, hr, requestIds, ContentBlock.requestId] using ih h₀

theorem requestIds_length (bs : List ContentBlock) :
    (requestIds bs).length = (bs.filter ContentBlock.isToolUse).length := by
  induction bs with
  | nil => rfl
  | cons c tl ih => cases c <;> simp [requestIds, ContentBlock.requestId, ContentBlock.isToolUse] at ih ⊢ <;> simpa using ih

theorem requestIds_filter (bs : List ContentBlock) :
    requestIds (bs.filter ContentBlock.isToolUse) = requestIds bs := by
  induction bs with
  | nil => rfl
  | cons c tl ih => cases c <;> simp [requestIds, ContentBlock.requestId, ContentBlock.isToolUse] at ih ⊢ <;> simpa using ih

theorem callTools_mem_session (s : Option Nat)
    (toolRes : String → String → Except String String) (bs : List ContentBlock)
    (sid : Nat) (n a : String)
    (h : Event.toolCall sid n a ∈ (callTools s toolRes bs).events) : s = some sid := by
  induction bs with
  | nil => simp [callTools] at h
  | cons c tl ih =>
      cases c with
      | text t => exact ih (by simpa [callTools] using h)
      | toolUse i n₀ a₀ =>
          cases s with
          | none => simp [callTools] at h
          | some sid₀ =>
              cases hr : toolRes n₀ a₀ with
              | error e =>
                  simp only [callTools, hr, List.mem_cons] at h
                  rcases h with h | h | h
                  · exact absurd h (by simp)
                  · rw [Event.toolCall.injEq] at h
                    rw [h.1]
                  · exact absurd h (by simp)
              | ok r =>
                  simp only [callTools, hr, List.mem_cons] at h
                  rcases h with h | h | h
                  · exact absurd h (by simp)
                  · rw [Event.toolCall.injEq] at h
                    rw [h.1]
                  · exact ih h

theorem toolCall_not_mem_textPrints (content : List ContentBlock)
    (sid : Nat) (n a : String) :
    Event.toolCall sid n a ∉ textPrints content := by
  induction content with
  | nil => simp [textPrints]
  | cons c tl ih => cases c <;> simp [textPrints] at ih ⊢ <;> simpa using ih

/-- C4: every tool invocation inside the `process_query` loop is dispatched
on the bot's one fixed `session` attribute, whatever the per-name
`sessions` registry maps the tool's name to. -/
theorem tool_dispatch_fixed_session (bot : Bot)
    (toolRes : String → String → Except String String) (msgs : List Message)
    (rounds : List (Except String (List ContentBlock))) (sid : Nat) (n a : String)
    (h : Event.toolCall sid n a ∈ (processQueryLoop bot toolRes msgs rounds).events) :
    bot.session = some sid := by
  induction rounds generalizing msgs with
  | nil => simp [processQueryLoop] at h
  | cons r rest ih =>
      cases r with
      | error e => simp [processQueryLoop] at h
      | ok content =>
          by_cases htub : content.filter ContentBlock.isToolUse = []
          · rw [processQueryLoop, if_pos htub] at h
            simp only [List.mem_cons] at h
            rcases h with h | h
            · exact absurd h (by simp)
            · exact absurd h (toolCall_not_mem_textPrints content sid n a)
          · rw [processQueryLoop, if_neg htub] at h
            simp only [] at h
            cases herr : (callTools bot.session toolRes
                (content.filter ContentBlock.isToolUse)).err with
            | some e =>
                rw [herr] at h
                simp only [List.mem_cons] at h
                rcases h with h | h
                · exact absurd h (by simp)
                · exact callTools_mem_session _ _ _ _ _ _ h
            | none =>
                rw [herr] at h
                simp only [List.mem_cons, List.mem_append] at h
                rcases h with (h | h) | h
                · exact absurd h (by simp)
                · exact callTools_mem_session _ _ _ _ _ _ h
                · exact ih _ h

/-- Witness for C4: with a registry that maps tool `f` to session 99 but a
fixed session attribute 1, the dispatch of `f` goes to session 1. -/
theorem tool_dispatch_fixed_session_witness :
    dictGet botMis.sessions "f" = some 99 ∧ botMis.session = some 1 :=
  ⟨by decide,
   tool_dispatch_fixed_session botMis (fun _ _ => .ok "r") []
     [.ok [.toolUse "t1" "f" "a"]] 1 "f" "a" (by decide)⟩

/-- C5: with `papers://folders` as the only registry entry, a lookup for
`papers://quantum` falls back to the same session (5, the one that serves
`papers://folders`) and its resource read is dispatched there, while a
lookup for `other://x` prints "not found" and performs no transport call. -/
theorem resource_fallback_and_not_found :
    resolveResource [("papers://folders", 7)] "papers://quantum" = some 7 ∧
    resolveResource [("papers://folders", 7)] "papers://folders" = some 7 ∧
    get_resource envA bot5 "papers://quantum" =
      [.readResource 5 "papers://quantum", .print "\nResource: papers://quantum",
       .print "Content:", .print "txt"] ∧
    get_resource envA bot5 "other://x" =
      [.print "Resource 'other://x' not found."] := by decide

/-- C6: the `/prompt` trailing tokens are parsed by splitting each token on
its first `=` and dropping tokens with no `=`: the two concrete examples of
the claim, plus the general facts that a token without `=` leaves the args
unchanged and that a token `k=v` with no `=` in `k` splits at that first
`=`. -/
theorem prompt_arg_parsing :
    parseArgs ["topic=ai", "year=2024"] = [("topic", "ai"), ("year", "2024")] ∧
    parseArgs ["topic=ai", "malformed"] = [("topic", "ai")] ∧
    (∀ (args : List (String × String)) (arg : String),
        splitFirst '=' arg.data = none → parseArgStep args arg = args) ∧
    (∀ (k v : List Char), '=' ∉ k → splitFirst '=' (k ++ '=' :: v) = some (k, v)) := by
  refine ⟨by decide, by decide, ?_, ?_⟩
  · intro args arg h
    simp [parseArgStep, h]
  · intro k v hk
    induction k with
    | nil => simp [splitFirst]
    | cons c cs ih =>
        have hc : c ≠ '=' := by
          intro hc
          exact hk (hc ▸ List.mem_cons_self c cs)
        have ihs := ih (fun hm => hk (List.mem_cons_of_mem c hm))
        simp [splitFirst, hc, ihs]

/-- Witness for C6: the general parsing facts evaluated at concrete
tokens. -/
theorem prompt_arg_parsing_witness :
    parseArgStep [("topic", "ai")] "malformed" = [("topic", "ai")] ∧
    splitFirst '=' ("ab".data ++ '=' :: "c=d".data) = some ("ab".data, "c=d".data) :=
  ⟨prompt_arg_parsing.2.2.1 [("topic", "ai")] "malformed" (by decide),
   prompt_arg_parsing.2.2.2 "ab".data "c=d".data (by decide)⟩

/-- C10: when a resource read succeeds with a non-empty content list, only
the first element's text is printed; the tail of the content list does not
influence the output at all. -/
theorem resource_prints_first_content (env : Env) (bot : Bot) (uri : String)
    (sid : Nat) (c : ResContent) (rest : List ResContent)
    (hres : resolveResource bot.sessions uri = some sid)
    (hread : env.readResult sid uri = .ok (c :: rest)) :
    get_resource env bot uri =
      [.readResource sid uri, .print ("\nResource: " ++ uri),
       .print "Content:", .print c.text] := by
  simp [get_resource, hres, hread]

/-- Witness for C10: a two-element resource content prints only the first
element's text. -/
theorem resource_prints_first_content_witness :
    get_resource envA bot5 "papers://folders" =
      [.readResource 5 "papers://folders", .print "\nResource: papers://folders",
       .print "Content:", .print "alpha"] :=
  resource_prints_first_content envA bot5 "papers://folders" 5 ⟨"alpha"⟩ [⟨"beta"⟩]
    (by decide) (by rfl)

/-- C2: in a loop round whose response has at least one tool-use-request
block and whose tool calls all return, exactly one user message is appended
right after the assistant message; it holds exactly one tool-result block
per request, with the `tool_use_id`s equal to the requests' ids in request
order. -/
theorem process_query_pairing (bot : Bot)
    (toolRes : String → String → Except String String) (msgs : List Message)
    (content : List ContentBlock) (rest : List (Except String (List ContentBlock)))
    (htub : content.filter ContentBlock.isToolUse ≠ [])
    (herr : (callTools bot.session toolRes
        (content.filter ContentBlock.isToolUse)).err = none) :
    processQueryLoop bot toolRes msgs (.ok content :: rest) =
      ⟨Event.modelCall ::
          (callTools bot.session toolRes (content.filter ContentBlock.isToolUse)).events ++
          (processQueryLoop bot toolRes
              (msgs ++ [⟨"assistant", .blocks content⟩,
                ⟨"user", .results (callTools bot.session toolRes
                    (content.filter ContentBlock.isToolUse)).results⟩]) rest).events,
        (processQueryLoop bot toolRes
            (msgs ++ [⟨"assistant", .blocks content⟩,
              ⟨"user", .results (callTools bot.session toolRes
                  (content.filter ContentBlock.isToolUse)).results⟩]) rest).outcome,
        (processQueryLoop bot toolRes
            (msgs ++ [⟨"assistant", .blocks content⟩,
              ⟨"user", .results (callTools bot.session toolRes
                  (content.filter ContentBlock.isToolUse)).results⟩]) rest).finalMessages⟩ ∧
    (callTools bot.session toolRes (content.filter ContentBlock.isToolUse)).results.length =
      (content.filter ContentBlock.isToolUse).length ∧
    (callTools bot.session toolRes (content.filter ContentBlock.isToolUse)).results.map
        ToolResultBlock.tool_use_id = requestIds content := by
  refine ⟨?_, ?_, ?_⟩
  · rw [processQueryLoop, if_neg htub]
    simp only [herr]
    simp [List.append_assoc]
  · have hids := callTools_ids bot.session toolRes
      (content.filter ContentBlock.isToolUse) herr
    have hlen := congrArg List.length hids
    rw [List.length_map] at hlen
    rw [hlen, requestIds_filter, requestIds_length]
  · rw [callTools_ids bot.session toolRes _ herr, requestIds_filter]

/-- Witness for C2: a three-block response with two tool requests produces
tool results whose ids are the two request ids in order. -/
theorem process_query_pairing_witness :
    (callTools bot5.session (fun _ _ => Except.ok "r")
        ([ContentBlock.toolUse "t1" "f" "x", ContentBlock.text "note",
          ContentBlock.toolUse "t2" "g" "y"].filter ContentBlock.isToolUse)).results.map
        ToolResultBlock.tool_use_id =
      requestIds [ContentBlock.toolUse "t1" "f" "x", ContentBlock.text "note",
        ContentBlock.toolUse "t2" "g" "y"] :=
  (process_query_pairing bot5 (fun _ _ => Except.ok "r") []
    [ContentBlock.toolUse "t1" "f" "x", ContentBlock.text "note",
      ContentBlock.toolUse "t2" "g" "y"] [] (by decide) (by decide)).2.2

theorem processQueryLoop_all_ok (bot : Bot) (sid : Nat) (hs : bot.session = some sid)
    (f : String → String → String) (final : List ContentBlock)
    (post : List (List ContentBlock))
    (hfin : final.filter ContentBlock.isToolUse = []) :
    ∀ (pre : List (List ContentBlock)) (msgs : List Message),
      (∀ r ∈ pre, r.filter ContentBlock.isToolUse ≠ []) →
      (processQueryLoop bot (fun n a => .ok (f n a)) msgs
          ((pre ++ final :: post).map Except.ok)).outcome = .completed ∧
      printedOf (processQueryLoop bot (fun n a => .ok (f n a)) msgs
          ((pre ++ final :: post).map Except.ok)).events =
        pre.flatMap (fun r => (r.filter ContentBlock.isToolUse).map traceLine) ++
          textsOf final := by
  intro pre
  induction pre with
  | nil =>
      intro msgs _
      refine ⟨?_, ?_⟩
      · simp only [List.nil_append, List.map_cons]
        rw [processQueryLoop, if_pos hfin]
      · simp only [List.nil_append, List.map_cons, List.flatMap_nil]
        rw [processQueryLoop, if_pos hfin]
        simp only [printedOf_modelCall_cons]
        exact printedOf_textPrints final
  | cons r pre ih =>
      intro msgs hall
      have htub : r.filter ContentBlock.isToolUse ≠ [] :=
        hall r (List.mem_cons_self r pre)
      have hall₂ : ∀ q ∈ pre, q.filter ContentBlock.isToolUse ≠ [] :=
        fun q hq => hall q (List.mem_cons_of_mem r hq)
      have herr := callTools_ok_err sid f (r.filter ContentBlock.isToolUse)
      refine ⟨?_, ?_⟩
      · simp only [List.cons_append, List.map_cons]
        rw [processQueryLoop, if_neg htub, hs]
        simp only [herr]
        exact (ih _ hall₂).1
      · simp only [List.cons_append, List.map_cons, List.flatMap_cons]
        rw [processQueryLoop, if_neg htub, hs]
        simp only [herr]
        have hrec := (ih (msgs ++ [⟨"assistant", .blocks r⟩] ++
          [⟨"user", .results (callTools (some sid) (fun n a => .ok (f n a))
              (r.filter ContentBlock.isToolUse)).results⟩]) hall₂).2
        rw [List.append_assoc] at hrec
        simp only [printedOf_append, printedOf_modelCall_cons,
          callTools_ok_printed, filter_isToolUse_idem, hrec, List.append_assoc]

/-- C1 (amended): if the model responses eventually contain a tool-free
response (and all tool calls return), `process_query` terminates, and its
printed output is one `Calling tool:` trace line per request of each
earlier round, in order, followed by the text blocks of the first tool-free
response in block order. -/
theorem process_query_terminates_and_prints (bot : Bot) (sid : Nat)
    (hs : bot.session = some sid) (f : String → String → String) (query : String)
    (pre post : List (List ContentBlock)) (final : List ContentBlock)
    (hpre : ∀ r ∈ pre, r.filter ContentBlock.isToolUse ≠ [])
    (hfin : final.filter ContentBlock.isToolUse = []) :
    (process_query bot (fun n a => .ok (f n a)) query
        ((pre ++ final :: post).map Except.ok)).outcome = .completed ∧
    printedOf (process_query bot (fun n a => .ok (f n a)) query
        ((pre ++ final :: post).map Except.ok)).events =
      pre.flatMap (fun r => (r.filter ContentBlock.isToolUse).map traceLine) ++
        textsOf final :=
  processQueryLoop_all_ok bot sid hs f final post hfin pre
    [⟨"user", .ofString query⟩] hpre

/-- Witness for C1's amended statement: one tool round then a text round. -/
theorem process_query_terminates_and_prints_witness :
    (process_query bot5 (fun n a => .ok ((fun _ _ => "r") n a)) "q"
        (([[ContentBlock.toolUse "t1" "f" "a"]] ++
          [ContentBlock.text "hi"] :: []).map Except.ok)).outcome = .completed ∧
    printedOf (process_query bot5 (fun n a => .ok ((fun _ _ => "r") n a)) "q"
        (([[ContentBlock.toolUse "t1" "f" "a"]] ++
          [ContentBlock.text "hi"] :: []).map Except.ok)).events =
      [[ContentBlock.toolUse "t1" "f" "a"]].flatMap
          (fun r => (r.filter ContentBlock.isToolUse).map traceLine) ++
        textsOf [ContentBlock.text "hi"] :=
  process_query_terminates_and_prints bot5 5 (by decide) (fun _ _ => "r") "q"
    [[ContentBlock.toolUse "t1" "f" "a"]] [] [ContentBlock.text "hi"]
    (by decide) (by decide)

/-- Counterexample to C1 as stated: with one tool round before the final
text response, the printed output also contains the tool trace line, so it
is not equal to the final response's text blocks alone. -/
theorem process_query_printed_counterexample :
    (process_query bot5 (fun _ _ => .ok "r") "q"
        [.ok [.toolUse "t1" "f" "a"], .ok [.text "hi"]]).outcome =
      QueryOutcome.completed ∧
    printedOf (process_query bot5 (fun _ _ => .ok "r") "q"
        [.ok [.toolUse "t1" "f" "a"], .ok [.text "hi"]]).events ≠
      textsOf [.text "hi"] := by decide

/-- C3 (amended): an error while connecting is caught and reported inside
`connect_to_server`, which returns normally, so `main` still enters the
chat loop (banner printed, inputs processed) with the initial state. -/
theorem connect_error_reported_loop_still_runs (e : String) (env : Env)
    (inputs : List String) :
    mainEvents (.error e) env inputs =
      Event.print ("\nError connecting to server: " ++ e) ::
        Event.print chatBanner :: (chatLoopAux env initialBot inputs).events := by
  simp [mainEvents, connect_to_server, chat_loop]

/-- Counterexample to C3 as stated: after a failed connection the chat
loop is still entered — its banner is printed and a free-form query even
reaches the model. -/
theorem connect_error_chat_loop_counterexample :
    mainEvents (.error "refused") envA ["hello"] =
      [.print "\nError connecting to server: refused", .print chatBanner,
       .modelCall, .print "hi"] ∧
    Event.print chatBanner ∈ mainEvents (.error "refused") envA ["hello"] ∧
    Event.modelCall ∈ mainEvents (.error "refused") envA ["hello"] := by decide

/-- C7: on input `""` or `"QUIT"` the chat loop stops at once: no model
call, no transport call, no print beyond the banner, and the remaining
input lines are never consumed. -/
theorem empty_or_quit_ends_session (env : Env) (bot : Bot) (rest : List String) :
    (chat_loop env bot ("" :: rest)).events = [Event.print chatBanner] ∧
    (chat_loop env bot ("QUIT" :: rest)).events = [Event.print chatBanner] := by
  have h₁ : chatLoopAux env bot ("" :: rest) = ⟨bot, []⟩ := by
    simp only [chatLoopAux]
    rw [if_pos (Or.inl (by decide))]
  have h₂ : chatLoopAux env bot ("QUIT" :: rest) = ⟨bot, []⟩ := by
    simp only [chatLoopAux]
    rw [if_pos (Or.inr (by decide))]
  exact ⟨by rw [chat_loop, h₁], by rw [chat_loop, h₂]⟩

/-- C8: when handling a line raises an error, the loop body's events are
followed by the printed error line and the loop goes on to process the
remaining input lines. -/
theorem line_error_caught_loop_continues (env : Env) (bot : Bot) (line : String)
    (rest : List String) (e : String)
    (hq : ¬(pyStrip line = "" ∨ pyLower (pyStrip line) = "quit"))
    (hr : (handleLine env bot (pyStrip line)).raised = some e) :
    chatLoopAux env bot (line :: rest) =
      ⟨(chatLoopAux env (handleLine env bot (pyStrip line)).bot rest).bot,
        ((handleLine env bot (pyStrip line)).events ++
            [Event.print ("\nError: " ++ e)]) ++
          (chatLoopAux env (handleLine env bot (pyStrip line)).bot rest).events⟩ := by
  simp only [chatLoopAux]
  rw [if_neg hq]
  simp only [hr]

/-- Witness for C8: the model raising `ConnectionError` on query `boom` is
reported and the loop continues with the next line. -/
theorem line_error_caught_loop_continues_witness :
    chatLoopAux envA bot5 ["boom", "hello"] =
      ⟨(chatLoopAux envA (handleLine envA bot5 (pyStrip "boom")).bot ["hello"]).bot,
        ((handleLine envA bot5 (pyStrip "boom")).events ++
            [Event.print ("\nError: " ++ "ConnectionError")]) ++
          (chatLoopAux envA (handleLine envA bot5 (pyStrip "boom")).bot
            ["hello"]).events⟩ :=
  line_error_caught_loop_continues envA bot5 "boom" ["hello"] "ConnectionError"
    (by decide) (by decide)

theorem dictInsert_values_eq (d : List (String × Nat)) (k : String) (v sid : Nat)
    (hd : ∀ p ∈ d, p.2 = sid) (hv : v = sid) :
    ∀ p ∈ dictInsert d k v, p.2 = sid := by
  induction d with
  | nil =>
      intro p hp
      simp only [dictInsert, List.mem_singleton] at hp
      rw [hp]
      exact hv
  | cons q tl ih =>
      obtain ⟨qk, qv⟩ := q
      intro p hp
      rw [dictInsert] at hp
      by_cases hk : qk = k
      · rw [if_pos hk] at hp
        rcases List.mem_cons.mp hp with h | h
        · rw [h]; exact hv
        · exact hd p (List.mem_cons_of_mem _ h)
      · rw [if_neg hk] at hp
        rcases List.mem_cons.mp hp with h | h
        · rw [h]; exact hd (qk, qv) (List.mem_cons_self _ _)
        · exact ih (fun q hq => hd q (List.mem_cons_of_mem _ hq)) p h

theorem tools_fold_inv (sid : Nat) (ts : List ToolDescriptor) :
    ∀ b : Bot, (b.session = some sid ∧ ∀ p ∈ b.sessions, p.2 = sid) →
      (ts.foldl (fun b t =>
          { b with sessions := dictInsert b.sessions t.name sid,
                   available_tools := b.available_tools ++ [t] }) b).session = some sid ∧
      ∀ p ∈ (ts.foldl (fun b t =>
          { b with sessions := dictInsert b.sessions t.name sid,
                   available_tools := b.available_tools ++ [t] }) b).sessions,
        p.2 = sid := by
  induction ts with
  | nil => intro b hb; exact hb
  | cons t tl ih =>
      intro b hb
      rw [List.foldl_cons]
      exact ih _ ⟨hb.1, dictInsert_values_eq _ _ _ _ hb.2 rfl⟩

theorem prompts_fold_inv (sid : Nat) (ps : List PromptInfo) :
    ∀ b : Bot, (b.session = some sid ∧ ∀ p ∈ b.sessions, p.2 = sid) →
      (ps.foldl (fun b p =>
          { b with sessions := dictInsert b.sessions p.name sid,
                   available_prompts := b.available_prompts ++ [p] }) b).session = some sid ∧
      ∀ q ∈ (ps.foldl (fun b p =>
          { b with sessions := dictInsert b.sessions p.name sid,
                   available_prompts := b.available_prompts ++ [p] }) b).sessions,
        q.2 = sid := by
  induction ps with
  | nil => intro b hb; exact hb
  | cons p tl ih =>
      intro b hb
      rw [List.foldl_cons]
      exact ih _ ⟨hb.1, dictInsert_values_eq _ _ _ _ hb.2 rfl⟩

theorem resources_fold_inv (sid : Nat) (us : List String) :
    ∀ b : Bot, (b.session = some sid ∧ ∀ p ∈ b.sessions, p.2 = sid) →
      (us.foldl (fun b u =>
          { b with sessions := dictInsert b.sessions u sid }) b).session = some sid ∧
      ∀ p ∈ (us.foldl (fun b u =>
          { b with sessions := dictInsert b.sessions u sid }) b).sessions,
        p.2 = sid := by
  induction us with
  | nil => intro b hb; exact hb
  | cons u tl ih =>
      intro b hb
      rw [List.foldl_cons]
      exact ih _ ⟨hb.1, dictInsert_values_eq _ _ _ _ hb.2 rfl⟩

theorem handleLine_bot (env : Env) (bot : Bot) (q : String) :
    (handleLine env bot q).bot = bot := by
  simp only [handleLine]
  split_ifs <;> rfl

theorem chatLoopAux_bot (env : Env) (inputs : List String) :
    ∀ bot : Bot, (chatLoopAux env bot inputs).bot = bot := by
  induction inputs with
  | nil => intro bot; rfl
  | cons line rest ih =>
      intro bot
      simp only [chatLoopAux]
      by_cases hq : pyStrip line = "" ∨ pyLower (pyStrip line) = "quit"
      · rw [if_pos hq]
      · rw [if_neg hq]
        show (chatLoopAux env (handleLine env bot (pyStrip line)).bot rest).bot = bot
        rw [ih, handleLine_bot]

/-- C9: after a successful `connect_to_server` every registry value is the
one connected session (which is also the fixed `session` attribute), and no
later operation of the chat loop ever modifies the bot state, so repeated
lookups of one key keep returning the same session. -/
theorem registry_single_session :
    (∀ (sid : Nat) (d : Discovery),
        (connect_to_server (.ok (sid, d)) initialBot).1.session = some sid ∧
        ∀ p ∈ (connect_to_server (.ok (sid, d)) initialBot).1.sessions, p.2 = sid) ∧
    (∀ (env : Env) (bot : Bot) (inputs : List String),
        (chat_loop env bot inputs).bot = bot) := by
  constructor
  · intro sid d
    simp only [connect_to_server]
    exact resources_fold_inv sid d.resourceUris _
      (prompts_fold_inv sid d.prompts _
        (tools_fold_inv sid d.tools _
          ⟨rfl, by intro p hp; simp [initialBot] at hp⟩))
  · intro env bot inputs
    show (chatLoopAux env bot inputs).bot = bot
    exact chatLoopAux_bot env inputs bot

/-- Witness for C9: the concrete discovery `discA` on session 3 maps every
key to session 3, and one pass of the chat loop leaves the bot intact. -/
theorem registry_single_session_witness :
    (connect_to_server (.ok (3, discA)) initialBot).1.session = some 3 ∧
    (("t1", 3) : String × Nat).2 = 3 ∧
    (chat_loop envA bot5 ["quit"]).bot = bot5 :=
  ⟨(registry_single_session.1 3 discA).1,
   (registry_single_session.1 3 discA).2 ("t1", 3) (by decide),
   registry_single_session.2 envA bot5 ["quit"]⟩

end MCPChat
